import Mathlib

/-!
Verification of the quiz-app room session engine (src/server/main.py).

The server keeps a process-wide dict `rooms` mapping a room id to a mutable
room dict.  Python dicts preserve insertion order, so they are modelled as
association lists (`List (String × _)`) together with `alookup` (lookup of
the first matching key), `aset` (update the first matching entry in place,
or append a fresh entry at the end — the semantics of `d[k] = v`), and
`aerase` (`del d[k]`, removing the first matching entry).

Every Socket.IO handler of the source becomes a function from the registry
to an `HOut` record: the new registry, the list of messages emitted (in
order, with their targets), the char-loop background tasks it started, and
whether an uncaught Python exception escaped the handler (`raised`); in the
`raised` case the registry and message list hold the effects already
performed before the exception, matching the in-place mutation semantics of
the source.
-/

set_option synthInstance.maxSize 1024

namespace QuizApp

/-- Truthiness of a Python value that is either `None` or a `str`:
`None` and `""` are falsy, every other string is truthy. -/
def pyTruthy : Option String → Bool
  | none => false
  | some s => s != ""

section AList

variable {α : Type}

/-- `d.get(k)` / `d[k]`: the value of the first entry with key `k`. -/
def alookup : List (String × α) → String → Option α
  | [], _ => none
  | kv :: rest, k => if kv.1 = k then some kv.2 else alookup rest k

/-- `d[k] = v`: replace the value of the first entry with key `k`, keeping
its position; if `k` is absent, append `(k, v)` at the end (Python dicts
insert new keys at the end of the iteration order). -/
def aset : List (String × α) → String → α → List (String × α)
  | [], k, v => [(k, v)]
  | kv :: rest, k, v => if kv.1 = k then (k, v) :: rest else kv :: aset rest k v

/-- `del d[k]`: remove the first entry with key `k`. -/
def aerase : List (String × α) → String → List (String × α)
  | [], _ => []
  | kv :: rest, k => if kv.1 = k then rest else kv :: aerase rest k

@[simp] theorem alookup_nil (k : String) : alookup ([] : List (String × α)) k = none := rfl

theorem alookup_aset_self (l : List (String × α)) (k : String) (v : α) :
    alookup (aset l k v) k = some v := by
  induction l with
  | nil => simp [aset, alookup]
  | cons kv rest ih =>
    by_cases h : kv.1 = k <;> simp [aset, alookup, h, ih]

theorem alookup_aset_ne (l : List (String × α)) (k k' : String) (v : α) (h : k' ≠ k) :
    alookup (aset l k v) k' = alookup l k' := by
  induction l with
  | nil => simp [aset, alookup, h, Ne.symm h]
  | cons kv rest ih =>
    by_cases hk : kv.1 = k
    · simp [aset, alookup, hk, h, Ne.symm h]
    · by_cases hk' : kv.1 = k' <;> simp [aset, alookup, hk, hk', h, ih]

theorem alookup_aerase_ne (l : List (String × α)) (k k' : String) (h : k' ≠ k) :
    alookup (aerase l k) k' = alookup l k' := by
  induction l with
  | nil => simp [aerase]
  | cons kv rest ih =>
    by_cases hk : kv.1 = k
    · simp [aerase, alookup, hk, h, Ne.symm h]
    · by_cases hk' : kv.1 = k' <;> simp [aerase, alookup, hk, hk', h, ih]

theorem alookup_mem {l : List (String × α)} {k : String} {v : α}
    (h : alookup l k = some v) : (k, v) ∈ l := by
  induction l with
  | nil => simp [alookup] at h
  | cons kv rest ih =>
    obtain ⟨k1, v1⟩ := kv
    by_cases hk : k1 = k
    · simp [alookup, hk] at h
      subst hk
      subst h
      exact List.mem_cons_self _ _
    · simp [alookup, hk] at h
      exact List.mem_cons_of_mem _ (ih h)

theorem mem_aset {l : List (String × α)} {k : String} {v : α} {kv : String × α}
    (h : kv ∈ aset l k v) : kv = (k, v) ∨ kv ∈ l := by
  induction l with
  | nil =>
    rw [show aset ([] : List (String × α)) k v = [(k, v)] from rfl] at h
    exact Or.inl (List.mem_singleton.mp h)
  | cons kv' rest ih =>
    by_cases hk : kv'.1 = k
    · rw [show aset (kv' :: rest) k v
            = if kv'.1 = k then (k, v) :: rest else kv' :: aset rest k v from rfl,
        if_pos hk] at h
      rcases List.mem_cons.mp h with h | h
      · exact Or.inl h
      · exact Or.inr (List.mem_cons_of_mem _ h)
    · rw [show aset (kv' :: rest) k v
            = if kv'.1 = k then (k, v) :: rest else kv' :: aset rest k v from rfl,
        if_neg hk] at h
      rcases List.mem_cons.mp h with h | h
      · exact Or.inr (h ▸ List.mem_cons_self _ _)
      · rcases ih h with h' | h'
        · exact Or.inl h'
        · exact Or.inr (List.mem_cons_of_mem _ h')

theorem mem_aerase {l : List (String × α)} {k : String} {kv : String × α}
    (h : kv ∈ aerase l k) : kv ∈ l := by
  induction l with
  | nil => simp [aerase] at h
  | cons kv' rest ih =>
    by_cases hk : kv'.1 = k
    · rw [show aerase (kv' :: rest) k
            = if kv'.1 = k then rest else kv' :: aerase rest k from rfl,
        if_pos hk] at h
      exact List.mem_cons_of_mem _ h
    · rw [show aerase (kv' :: rest) k
            = if kv'.1 = k then rest else kv' :: aerase rest k from rfl,
        if_neg hk] at h
      rcases List.mem_cons.mp h with h | h
      · exact h ▸ List.mem_cons_self _ _
      · exact List.mem_cons_of_mem _ (ih h)

theorem aset_self_eq {l : List (String × α)} {k : String} {v : α}
    (h : alookup l k = some v) : aset l k v = l := by
  induction l with
  | nil => simp [alookup] at h
  | cons kv rest ih =>
    obtain ⟨k1, v1⟩ := kv
    by_cases hk : k1 = k
    · simp [alookup, hk] at h
      subst hk
      subst h
      simp [aset]
    · simp [alookup, hk] at h
      rw [show aset ((k1, v1) :: rest) k v
            = if k1 = k then (k, v) :: rest else (k1, v1) :: aset rest k v from rfl,
        if_neg hk, ih h]

end AList

/-- Python `list` indexing with negative-index support; `none` models an
`IndexError`. -/
def pyListGet {α : Type} (l : List α) (i : Int) : Option α :=
  if 0 ≤ i then l.get? i.toNat
  else if (-i).toNat ≤ l.length then l.get? (l.length - (-i).toNat) else none

/-- One entry of the `players` dict: `{"name": ..., "score": ..., "sid": ...}`;
`sid = none` is the offline marker (`p["sid"] = None`). -/
structure Player where
  name : String
  score : Int
  sid : Option String
deriving DecidableEq, Repr

/-- The `r["quiz"]` dict created by `next_question`:
`{"text", "answer", "index", "active", "buzzed_sid"}`.  Despite its source
name, `buzzed_sid` holds the holder's persistent `user_id`. -/
structure Quiz where
  text : String
  answer : String
  index : Nat
  active : Bool
  buzzed_sid : Option String
deriving DecidableEq, Repr

/-- One parsed CSV question row as the program reads it: the values of the
`question` and `answer` columns (`none` models `csv.DictReader`'s restval
`None` for a data line shorter than the header). Other columns of the file
are kept by the source in the row dict but never read, so they are not
modelled. -/
structure Row where
  question : Option String
  answer : Option String
deriving DecidableEq, Repr

/-- One room dict of the registry, with the fields of `create_room`. -/
structure Room where
  master_user_id : String
  master_name : String
  players : List (String × Player)
  questions : List Row
  current : Int
  quiz : Option Quiz
  state : String
  empty_at : Option Nat
deriving DecidableEq, Repr

/-- The process-wide `rooms` dict. -/
abbrev Registry : Type := List (String × Room)

/-- Target of a `sio.emit` call: a direct send (`to=sid`, where the sid may
be `None` for an offline player's stored handle) or a room broadcast. -/
inductive Target where
  | toSid (s : Option String)
  | toRoom (room : String)
deriving DecidableEq, Repr

/-- Outbound events of the source, with their payloads. -/
inductive OutMsg where
  | errorMsg (t : Target) (msg : String)
  | joined (t : Target)
  | role (t : Target) (isMaster : Bool)
  | masterInfo (t : Target) (name : String)
  | playersMsg (t : Target) (ps : List (String × Player))
  | counter (t : Target) (cur : Int)
  | enableBuzz (t : Target) (b : Bool)
  | charMsg (t : Target) (c : Char)
  | buzzedMsg (t : Target) (name : String)
  | clearBuzzed (t : Target)
  | syncState (t : Target) (st : String)
  | syncDisplay (t : Target) (question : String) (answer : String)
  | reveal (t : Target) (question : String) (answer : String)
  | finalMsg (t : Target) (ranking : List Player)
  | clearDisplayMsg (t : Target)
  | roomClosed (t : Target)
deriving DecidableEq, Repr

/-- Result of running one event handler: the new registry, the emitted
messages in order, the rooms for which a `char_loop` background task was
started, and whether an uncaught exception escaped the handler (in which
case registry and messages hold the effects performed before the raise). -/
structure HOut where
  rooms : Registry
  out : List OutMsg
  spawned : List String
  raised : Bool
deriving DecidableEq

/-- A handler that returned normally. -/
def hOk (rooms : Registry) (out : List OutMsg) : HOut := ⟨rooms, out, [], false⟩

/-- A handler an uncaught exception escaped from. -/
def hErr (rooms : Registry) (out : List OutMsg) : HOut := ⟨rooms, out, [], true⟩

/-- `ROOM_TIMEOUT`: grace period in seconds before an empty room is deleted. -/
def ROOM_TIMEOUT : Nat := 300

/-! ### Question parsing (`parse_questions`)

The question source arrives over Socket.IO either as a `str` or as `bytes`.
Text processing is modelled over `List Char` with structural recursion so
that every concrete evaluation reduces in the kernel. -/

/-- Uploaded `fileContent`: already a `str`, or raw `bytes`. -/
inductive FileContent where
  | str (s : String)
  | bytes (b : List Nat)
deriving DecidableEq, Repr

/-- The characters Python's `str.strip()` removes (the ASCII whitespace
subset; the source's inputs contain no exotic Unicode whitespace). -/
def pyWS (c : Char) : Bool :=
  c == ' ' || c == '\t' || c == '\n' || c == '\r' || c == '\x0b' || c == '\x0c'

/-- `text.strip()`. -/
def pyStrip (cs : List Char) : List Char :=
  ((cs.dropWhile pyWS).reverse.dropWhile pyWS).reverse

/-- Split a character list at every occurrence of `sep` (like
`str.split(sep)`: n separators yield n+1 pieces). -/
def splitChar (sep : Char) : List Char → List (List Char)
  | [] => [[]]
  | c :: rest =>
    if c = sep then [] :: splitChar sep rest
    else
      match splitChar sep rest with
      | h :: t => (c :: h) :: t
      | [] => [[c]]

/-- Strip one trailing carriage return, as the csv reader does for
`\r\n`-terminated records. -/
def stripCR (cs : List Char) : List Char :=
  match cs.reverse with
  | '\r' :: rest => rest.reverse
  | _ => cs

/-- Normalise one header cell: strip it and delete every U+FEFF BOM
character, as the source does with `strip` and `replace`. -/
def normHeader (s : String) : String :=
  String.mk ((pyStrip s.data).filter (fun c => c != '﻿'))

/-- Validating UTF-8 decoder over byte values (RFC 3629 ranges, surrogates
and over-long encodings rejected), as `bytes.decode("utf-8")`. -/
def utf8Dec : List Nat → Option (List Char)
  | [] => some []
  | b :: rest =>
    if b ≤ 0x7F then
      (utf8Dec rest).map (fun cs => Char.ofNat b :: cs)
    else if 0xC2 ≤ b && b ≤ 0xDF then
      match rest with
      | c1 :: r2 =>
        if 0x80 ≤ c1 && c1 ≤ 0xBF then
          (utf8Dec r2).map (fun cs => Char.ofNat ((b - 0xC0) * 0x40 + (c1 - 0x80)) :: cs)
        else none
      | [] => none
    else if 0xE0 ≤ b && b ≤ 0xEF then
      match rest with
      | c1 :: c2 :: r3 =>
        let lo1 := if b = 0xE0 then 0xA0 else 0x80
        let hi1 := if b = 0xED then 0x9F else 0xBF
        if (lo1 ≤ c1 && c1 ≤ hi1) && (0x80 ≤ c2 && c2 ≤ 0xBF) then
          (utf8Dec r3).map
            (fun cs => Char.ofNat ((b - 0xE0) * 0x1000 + (c1 - 0x80) * 0x40 + (c2 - 0x80)) :: cs)
        else none
      | _ => none
    else if 0xF0 ≤ b && b ≤ 0xF4 then
      match rest with
      | c1 :: c2 :: c3 :: r4 =>
        let lo1 := if b = 0xF0 then 0x90 else 0x80
        let hi1 := if b = 0xF4 then 0x8F else 0xBF
        if (lo1 ≤ c1 && c1 ≤ hi1) && (0x80 ≤ c2 && c2 ≤ 0xBF) && (0x80 ≤ c3 && c3 ≤ 0xBF) then
          (utf8Dec r4).map
            (fun cs => Char.ofNat
              ((b - 0xF0) * 0x40000 + (c1 - 0x80) * 0x1000 + (c2 - 0x80) * 0x40 + (c3 - 0x80)) :: cs)
        else none
      | _ => none
    else none

/-- `file_content.decode("utf-8-sig")`: UTF-8 with an optional BOM stripped. -/
def utf8SigDecode (b : List Nat) : Option String :=
  let body :=
    match b with
    | 0xEF :: 0xBB :: 0xBF :: rest => rest
    | _ => b
  (utf8Dec body).map String.mk

/-- `file_content.decode("cp932")`.  The codec itself is Python library
code, external to this repository: the DOMAIN is modelled faithfully
(ASCII `0x00`-`0x7F`; halfwidth katakana `0xA1`-`0xDF`; double-byte pairs
with lead `0x81`-`0x9F`/`0xE0`-`0xFC` and trail `0x40`-`0x7E`/`0x80`-`0xFC`;
everything else raises `UnicodeDecodeError`), while the character produced
for a double-byte pair abstracts the JIS X 0208 table, which the program
never inspects. -/
def cp932Dec : List Nat → Option (List Char)
  | [] => some []
  | b :: rest =>
    if b ≤ 0x7F then
      (cp932Dec rest).map (fun cs => Char.ofNat b :: cs)
    else if 0xA1 ≤ b && b ≤ 0xDF then
      (cp932Dec rest).map (fun cs => Char.ofNat (0xFF61 + (b - 0xA1)) :: cs)
    else if (0x81 ≤ b && b ≤ 0x9F) || (0xE0 ≤ b && b ≤ 0xFC) then
      match rest with
      | t :: r2 =>
        if (0x40 ≤ t && t ≤ 0x7E) || (0x80 ≤ t && t ≤ 0xFC) then
          (cp932Dec r2).map (fun cs => Char.ofNat (0x10000 + b * 0x100 + t) :: cs)
        else none
      | [] => none
    else none

def cp932Decode (b : List Nat) : Option String :=
  (cp932Dec b).map String.mk

/-- The decode phase of `parse_questions`: a `str` is used as is; `bytes`
are tried as UTF-8 (BOM-aware) and then as CP932; `none` means both decodes
raised, the path on which the source executes the bare `return []`.  (The
source's `AttributeError` branch for values that are neither `str` nor
`bytes` cannot arise for these two payload forms.) -/
def decodeContent : FileContent → Option String
  | .str s => some s
  | .bytes b =>
    match utf8SigDecode b with
    | some s => some s
    | none => cp932Decode b

/-- What `parse_questions` returns: either the normal `(questions, error)`
tuple, or the bare empty list of the undecodable-bytes path (`return []`),
which the caller's tuple unpacking turns into a `ValueError`. -/
inductive ParseRet where
  | tuple (questions : List Row) (error : Option String)
  | bareList
deriving DecidableEq, Repr

/-- `str(list_of_headers)` as Python prints it in the format error. -/
def pyShowList (l : List String) : String :=
  "[" ++ String.intercalate ", " (l.map (fun h => "\x27" ++ h ++ "\x27")) ++ "]"

/-- The csv rows of the stripped text: each line split on commas, a blank
line yielding the empty row that `csv.DictReader` skips.  Quoting and
embedded separators are not used by the inputs this development evaluates. -/
def csvRows (t : List Char) : List (List String) :=
  if t = [] then []
  else
    (splitChar '\n' t).map (fun line =>
      let line := stripCR line
      if line = [] then [] else (splitChar ',' line).map String.mk)

/-- The value a `csv.DictReader` row dict holds for key `k`:
`dict(zip(fieldnames, fields))` followed by the restval pass that writes
`None` for each fieldname beyond the row's length — the last assignment to
`k` wins. -/
def rowVal (headers fields : List String) (k : String) : Option String :=
  ((headers.zip fields).map (fun kv => (kv.1, some kv.2))
      ++ (headers.drop fields.length).map (fun h => (h, (none : Option String)))).foldl
    (fun acc kv => if kv.1 = k then kv.2 else acc) none

def mkRow (headers fields : List String) : Row :=
  { question := rowVal headers fields "question", answer := rowVal headers fields "answer" }

/-- `parse_questions` (src/server/main.py): decode, strip, read the header,
normalise it, require the `question` and `answer` columns, and require at
least one data row. -/
def parse_questions (fc : FileContent) : ParseRet :=
  match decodeContent fc with
  | none => .bareList
  | some text =>
    match csvRows (pyStrip text.data) with
    | [] => .tuple [] (some "CSVエラー：ヘッダー（1行目）が見つかりません。")
    | header :: rest =>
      if header = [] then .tuple [] (some "CSVエラー：ヘッダー（1行目）が見つかりません。")
      else
        let normalized := header.map normHeader
        if "question" ∈ normalized ∧ "answer" ∈ normalized then
          let questions := (rest.filter (fun row => row ≠ [])).map (mkRow normalized)
          if questions = [] then .tuple [] (some "データエラー：問題データが0件です。")
          else .tuple questions none
        else
          .tuple []
            (some ("フォーマットエラー：必須列(question, answer)がありません。現在の列: "
              ++ pyShowList normalized))

/-- The `players` payload of `emit_players`: every player except the host. -/
def playersOnly (r : Room) : List (String × Player) :=
  r.players.filter (fun kv => !(kv.1 == r.master_user_id))

/-- Payload of a `create_room` request. -/
structure CreateData where
  roomId : String
  name : String
  userId : String
  fileContent : FileContent
deriving DecidableEq, Repr

/-- `create_room`: reject a duplicate room id; parse the question source and
reject it with the parser's message; otherwise install the room with the
host as its only player and greet the creator.  On the undecodable-bytes
path `parse_questions` returns a bare list and the tuple unpacking
`questions, error_msg = ...` raises `ValueError` before any mutation or
emit. -/
def create_room (sid : String) (d : CreateData) (rooms : Registry) : HOut :=
  if (alookup rooms d.roomId).isSome then
    hOk rooms [.errorMsg (.toSid (some sid)) "そのルームIDは既に使われています"]
  else
    match parse_questions d.fileContent with
    | .bareList => hErr rooms []
    | .tuple questions error =>
      match error with
      | some msg => hOk rooms [.errorMsg (.toSid (some sid)) msg]
      | none =>
        let newRoom : Room :=
          { master_user_id := d.userId
            master_name := d.name
            players := [(d.userId, { name := d.name, score := 0, sid := some sid })]
            questions := questions
            current := -1
            quiz := none
            state := "init"
            empty_at := none }
        ⟨aset rooms d.roomId newRoom,
          [.joined (.toSid (some sid)), .role (.toSid (some sid)) true,
           .masterInfo (.toRoom d.roomId) d.name,
           .playersMsg (.toRoom d.roomId) (playersOnly newRoom)],
          [], false⟩

/-! ### The event handlers -/

/-- `next((uid for uid, p in r["players"].items() if p["sid"] == sid), None)`,
returning the entry as well (the source re-reads it by key right after). -/
def findBySidP : List (String × Player) → String → Option (String × Player)
  | [], _ => none
  | kv :: rest, sid => if kv.2.sid = some sid then some kv else findBySidP rest sid

/-- `next((uid for uid, p in r["players"].items() if p["name"] == name), None)`. -/
def findByName : List (String × Player) → String → Option (String × Player)
  | [], _ => none
  | kv :: rest, name => if kv.2.name = name then some kv else findByName rest name

/-- `sum(1 for p in r["players"].values() if p.get("sid") is not None)`. -/
def countActive (ps : List (String × Player)) : Nat :=
  (ps.filter (fun kv => kv.2.sid.isSome)).length

/-- `sorted(..., key=lambda p: p["score"], reverse=True)`: a stable
descending sort by score (ties keep their join order), as Python's `sorted`
guarantees. -/
def insertDesc (p : Player) : List Player → List Player
  | [] => [p]
  | q :: rest => if p.score ≥ q.score then p :: q :: rest else q :: insertDesc p rest

def sortDesc : List Player → List Player
  | [] => []
  | p :: rest => insertDesc p (sortDesc rest)

/-- The ranking payload of `end_game` and of the `finished` resync branch. -/
def rankingOf (r : Room) : List Player :=
  sortDesc ((playersOnly r).map (fun kv => kv.2))

/-- `disconnect`, inner loop: mark the FIRST player whose connection handle
equals `sid` offline and stop; `none` if this room has no such player. -/
def discPlayers : List (String × Player) → String → Option (List (String × Player))
  | [], _ => none
  | (uid, p) :: rest, sid =>
    if p.sid = some sid then some ((uid, { p with sid := none }) :: rest)
    else (discPlayers rest sid).map (fun ps => (uid, p) :: ps)

/-- `disconnect`, outer loop over the registry: the handler returns after
the first room that contained the disconnecting connection. -/
def discRooms (sid : String) : Registry → Registry
  | [] => []
  | (rid, r) :: rest =>
    match discPlayers r.players sid with
    | some ps => (rid, { r with players := ps }) :: rest
    | none => (rid, r) :: discRooms sid rest

/-- `disconnect`: transport-level disconnection only clears the connection
handle of the one matching player ("mark offline"); it deletes nothing,
touches no quiz or state, and emits nothing. -/
def disconnect (sid : String) (rooms : Registry) : HOut :=
  hOk (discRooms sid rooms) []

/-- Payload of a `join_room` request. -/
structure JoinData where
  roomId : String
  name : String
  userId : String
deriving DecidableEq, Repr

/-- The quiz-display restoration block shared verbatim by `join_room` and
`request_sync`: the partial text up to `index` while a question is in
progress, the full text (and the answer) after judgment, then the buzz
holder's name or, in `asking` with no holder, the buzz-enable flag.  The
second component is `true` when the holder's record is missing from
`players` and the name lookup raises `KeyError` (after `sync_display` was
already sent). -/
def quizSyncMsgs (r : Room) (sid : String) : List OutMsg × Bool :=
  match r.quiz with
  | none => ([], false)
  | some q =>
    let displayText :=
      if r.state == "asking" || r.state == "buzzed" || r.state == "wrong"
          || r.state == "timeout" then
        String.mk (q.text.data.take q.index)
      else q.text
    let answerText :=
      if r.state == "show_answer" || r.state == "all_done" then "正解：" ++ q.answer else ""
    let base := [OutMsg.syncDisplay (.toSid (some sid)) displayText answerText]
    match q.buzzed_sid with
    | some uid =>
      if uid = "" then
        if r.state == "asking" then (base ++ [.enableBuzz (.toSid (some sid)) true], false)
        else (base, false)
      else
        match alookup r.players uid with
        | some p => (base ++ [.buzzedMsg (.toSid (some sid)) p.name], false)
        | none => (base, true)
    | none =>
      if r.state == "asking" then (base ++ [.enableBuzz (.toSid (some sid)) true], false)
      else (base, false)

/-- The registration step of `join_room`: reconnection by known `userId`;
else name-collision check, with identity takeover of an offline
name-holder (score and role inherited, `master_user_id` and `buzzed_sid`
repointed in the same step) or rejection when the name-holder is connected
(`none`); else a fresh player.  Applied to the room whose `empty_at` the
handler has already cleared. -/
def joinReg (sid : String) (d : JoinData) (r1 : Room) : Option Room :=
  if (alookup r1.players d.userId).isSome then
    some { r1 with
      players :=
        match alookup r1.players d.userId with
        | some p => aset r1.players d.userId { p with sid := some sid, name := d.name }
        | none => r1.players }
  else
    match findByName r1.players d.name with
    | some (euid, ep) =>
      if ep.sid = none then
        let ps2 := aerase (aset r1.players d.userId { ep with sid := some sid }) euid
        some { r1 with
          players := ps2
          master_user_id := if r1.master_user_id = euid then d.userId else r1.master_user_id
          quiz :=
            match r1.quiz with
            | some q =>
              if q.buzzed_sid = some euid then some { q with buzzed_sid := some d.userId }
              else some q
            | none => none }
      else none
    | none =>
      some { r1 with
        players := aset r1.players d.userId { name := d.name, score := 0, sid := some sid } }

/-- `join_room`: unknown room is a validation error to the sender only; an
existing room first gets `empty_at` cleared, then the registration logic
runs, then the sender is sent role info, the room roster, and a full
display resynchronisation. -/
def join_room (sid : String) (d : JoinData) (rooms : Registry) : HOut :=
  match alookup rooms d.roomId with
  | none => hOk rooms [.errorMsg (.toSid (some sid)) "存在しないルームIDです"]
  | some r0 =>
    let r1 := { r0 with empty_at := none }
    match joinReg sid d r1 with
    | none =>
      hOk (aset rooms d.roomId r1) [.errorMsg (.toSid (some sid)) "その名前は既に使われています"]
    | some r2 =>
      let isMaster := d.userId == r2.master_user_id
      let msgs :=
        [OutMsg.joined (.toSid (some sid)), OutMsg.role (.toSid (some sid)) isMaster,
         OutMsg.masterInfo (.toSid (some sid)) r2.master_name,
         OutMsg.playersMsg (.toRoom d.roomId) (playersOnly r2)]
        ++ (if r2.current ≥ 0 then [OutMsg.counter (.toSid (some sid)) (r2.current + 1)] else [])
        ++ (if isMaster then [OutMsg.syncState (.toSid (some sid)) r2.state] else [])
        ++ (if r2.state == "finished" then [OutMsg.finalMsg (.toSid (some sid)) (rankingOf r2)]
            else [])
      let (syncMsgs, raised) := quizSyncMsgs r2 sid
      ⟨aset rooms d.roomId r2, msgs ++ syncMsgs, [], raised⟩

/-- `leave_room` (explicit leave button): the host is never removed; a
leaving buzz holder triggers the recovery (clear holder, reopen buzzer,
state back to `asking`, direct `sync_state` to the host); the record is
deleted, the roster re-broadcast, and `empty_at` set when no connected
member remains.  `time.time()` is modelled by the event's `now`. -/
def leave_room (sid roomId : String) (now : Nat) (rooms : Registry) : HOut :=
  match alookup rooms roomId with
  | none => hOk rooms []
  | some r =>
    match findBySidP r.players sid with
    | none => hOk rooms []
    | some (uid, _) =>
      if uid = "" then hOk rooms []
      else if uid = r.master_user_id then hOk rooms []
      else
        let recov : Room × List OutMsg :=
          match r.quiz with
          | some q =>
            if q.buzzed_sid = some uid then
              let r' := { r with
                quiz := some { q with buzzed_sid := none, active := true }, state := "asking" }
              (r',
                [OutMsg.clearBuzzed (.toRoom roomId), OutMsg.enableBuzz (.toRoom roomId) true]
                ++ match alookup r'.players r'.master_user_id with
                   | some pm => [OutMsg.syncState (.toSid pm.sid) "asking"]
                   | none => [])
            else (r, [])
          | none => (r, [])
        let r2 := { recov.1 with players := aerase recov.1.players uid }
        let r3 := if countActive r2.players = 0 then { r2 with empty_at := some now } else r2
        hOk (aset rooms roomId r3)
          (recov.2 ++ [OutMsg.playersMsg (.toRoom roomId) (playersOnly r2)])

/-- `next_question`: host-only (the sid must equal the host player's stored
handle — the lookup itself raises if the host's record is missing);
`current` is incremented BEFORE the remaining-questions check, so the
increment persists even when no questions remain; otherwise the quiz dict
is created, the buzzer opened, and a `char_loop` task started.  A `none`
question/answer field of a ragged csv row is read as `""` here; the source
would store Python `None` and only fail later, a path no claim exercises. -/
def next_question (sid roomId : String) (rooms : Registry) : HOut :=
  match alookup rooms roomId with
  | none => hOk rooms []
  | some r =>
    match alookup r.players r.master_user_id with
    | none => hErr rooms []
    | some pm =>
      if pm.sid ≠ some sid then hOk rooms []
      else
        let r1 := { r with current := r.current + 1 }
        if r1.current ≥ (r1.questions.length : Int) then hOk (aset rooms roomId r1) []
        else
          match pyListGet r1.questions r1.current with
          | none => hErr (aset rooms roomId r1) []
          | some row =>
            let r2 := { r1 with
              quiz := some
                { text := row.question.getD "", answer := row.answer.getD "",
                  index := 0, active := true, buzzed_sid := none }
              state := "asking" }
            ⟨aset rooms roomId r2,
              [.counter (.toRoom roomId) (r2.current + 1), .enableBuzz (.toRoom roomId) true],
              [roomId], false⟩

/-- `buzz`: accepted only while the quiz is active with no (truthy) holder
and the sender's connection maps to a player (whose id the source then
requires truthy: `if not user_id: return`); acceptance closes the buzzer,
records the holder and broadcasts it. -/
def buzz (sid roomId : String) (rooms : Registry) : HOut :=
  match alookup rooms roomId with
  | none => hOk rooms []
  | some r =>
    match r.quiz with
    | none => hOk rooms []
    | some q =>
      if !q.active || pyTruthy q.buzzed_sid then hOk rooms []
      else
        match findBySidP r.players sid with
        | none => hOk rooms []
        | some (uid, p) =>
          if uid = "" then hOk rooms []
          else
            let r2 := { r with
              quiz := some { q with active := false, buzzed_sid := some uid },
              state := "buzzed" }
            hOk (aset rooms roomId r2)
              [.buzzedMsg (.toRoom roomId) p.name, .enableBuzz (.toRoom roomId) false]

/-- `wrong`: clear the holder, set state `wrong`, broadcast `clear_buzzed`.
The buzzer (`active`) is NOT reopened and no reveal task is started; that
only happens on a subsequent `resume`. -/
def wrong (sid roomId : String) (rooms : Registry) : HOut :=
  match alookup rooms roomId with
  | none => hOk rooms []
  | some r =>
    match r.quiz with
    | none => hOk rooms []
    | some q =>
      hOk (aset rooms roomId
            { r with quiz := some { q with buzzed_sid := none }, state := "wrong" })
        [.clearBuzzed (.toRoom roomId)]

/-- `resume`: reactivate the quiz, state back to `asking`, reopen the
buzzer, and start ANOTHER `char_loop` task — unconditionally, with no
check that a previous one has terminated. -/
def resume (sid roomId : String) (rooms : Registry) : HOut :=
  match alookup rooms roomId with
  | none => hOk rooms []
  | some r =>
    match r.quiz with
    | none => hOk rooms []
    | some q =>
      ⟨aset rooms roomId { r with quiz := some { q with active := true }, state := "asking" },
        [.enableBuzz (.toRoom roomId) true], [roomId], false⟩

/-- `timeout`: close the buzzer, clear the holder, state `timeout`. -/
def timeout (sid roomId : String) (rooms : Registry) : HOut :=
  match alookup rooms roomId with
  | none => hOk rooms []
  | some r =>
    match r.quiz with
    | none => hOk rooms []
    | some q =>
      let q2 := { q with active := false, buzzed_sid := none }
      hOk (aset rooms roomId { r with quiz := some q2, state := "timeout" })
        [.enableBuzz (.toRoom roomId) false, .clearBuzzed (.toRoom roomId)]

/-- The award step of `judge`: `if q["buzzed_sid"]: players[holder].score += 10`.
`none` models the `KeyError` when a truthy holder id is not a key of
`players`. -/
def awardPlayers (ps : List (String × Player)) (holder : Option String) :
    Option (List (String × Player)) :=
  match holder with
  | some uid =>
    if uid = "" then some ps
    else
      match alookup ps uid with
      | some p => some (aset ps uid { p with score := p.score + 10 })
      | none => none
  | none => some ps

/-- The common tail of `judge`: reveal full text and answer to the room,
re-broadcast the roster, close the buzzer display, clear the buzz display. -/
def judgeTail (roomId : String) (r2 : Room) (q : Quiz) : List OutMsg :=
  [.reveal (.toRoom roomId) q.text q.answer,
   .playersMsg (.toRoom roomId) (playersOnly r2),
   .enableBuzz (.toRoom roomId) false,
   .clearBuzzed (.toRoom roomId)]

/-- `judge`: award 10 points to a (truthy) holder, clear holder and buzzer,
then `all_done` on the last question (with a direct `sync_state` to the
host, whose record the source dereferences unguarded) or `show_answer`
otherwise.  No check of the sender at all. -/
def judge (sid roomId : String) (rooms : Registry) : HOut :=
  match alookup rooms roomId with
  | none => hOk rooms []
  | some r =>
    match r.quiz with
    | none => hOk rooms []
    | some q =>
      match awardPlayers r.players q.buzzed_sid with
      | none => hErr rooms []
      | some ps1 =>
        let q2 := { q with active := false, buzzed_sid := none }
        if r.current = (r.questions.length : Int) - 1 then
          let r2 := { r with players := ps1, quiz := some q2, state := "all_done" }
          match alookup r2.players r2.master_user_id with
          | none => hErr (aset rooms roomId r2) []
          | some pm =>
            hOk (aset rooms roomId r2)
              (OutMsg.syncState (.toSid pm.sid) "all_done" :: judgeTail roomId r2 q)
        else
          let r2 := { r with players := ps1, quiz := some q2, state := "show_answer" }
          hOk (aset rooms roomId r2) (judgeTail roomId r2 q)

/-- `clear_display`: host-only; discard the quiz and return to `init`. -/
def clear_display (sid roomId : String) (rooms : Registry) : HOut :=
  match alookup rooms roomId with
  | none => hOk rooms []
  | some r =>
    match alookup r.players r.master_user_id with
    | none => hErr rooms []
    | some pm =>
      if pm.sid = some sid then
        hOk (aset rooms roomId { r with quiz := none, state := "init" })
          [.clearDisplayMsg (.toRoom roomId)]
      else hOk rooms []

/-- `end_game` (request-ranking): compute the stable descending ranking of
the non-host players, mark the room `finished`, broadcast the ranking.  No
check of the sender at all. -/
def end_game (sid roomId : String) (rooms : Registry) : HOut :=
  match alookup rooms roomId with
  | none => hOk rooms []
  | some r =>
    hOk (aset rooms roomId { r with state := "finished" })
      [.finalMsg (.toRoom roomId) (rankingOf r)]

/-- `close_room`: host-only; notify every player record individually (an
offline record's stored handle is `None`), then delete the room. -/
def close_room (sid roomId : String) (rooms : Registry) : HOut :=
  match alookup rooms roomId with
  | none => hOk rooms []
  | some r =>
    match alookup r.players r.master_user_id with
    | none => hErr rooms []
    | some pm =>
      if pm.sid = some sid then
        hOk (aerase rooms roomId) (r.players.map (fun kv => .roomClosed (.toSid kv.2.sid)))
      else hOk rooms []

/-- `request_sync`: the host (identified by stored handle) gets the raw
state token; everyone gets the display restoration block. -/
def request_sync (sid roomId : String) (rooms : Registry) : HOut :=
  match alookup rooms roomId with
  | none => hOk rooms []
  | some r =>
    let stateMsgs :=
      match alookup r.players r.master_user_id with
      | some pm => if pm.sid = some sid then [OutMsg.syncState (.toSid (some sid)) r.state] else []
      | none => []
    let (syncMsgs, raised) := quizSyncMsgs r sid
    ⟨rooms, stateMsgs ++ syncMsgs, [], raised⟩

/-- One room's treatment by an iteration of `cleanup_loop`: stamp
`empty_at` on first observing an empty room, mark it for deletion once the
grace period has elapsed, and clear the stamp whenever a member is
connected. -/
def cleanupRoom (now : Nat) (r : Room) : Room × Bool :=
  if countActive r.players = 0 then
    match r.empty_at with
    | none => ({ r with empty_at := some now }, false)
    | some e => (r, decide (now - e > ROOM_TIMEOUT))
  else ({ r with empty_at := none }, false)

/-- One pass of `cleanup_loop` over the registry. -/
def cleanup_pass (now : Nat) (rooms : Registry) : Registry :=
  ((rooms.map (fun kv => (kv.1, cleanupRoom now kv.2))).filter
      (fun kv => !kv.2.2)).map (fun kv => (kv.1, kv.2.1))

/-! ### The cooperative system: registry + `char_loop` tasks

`char_loop` suspends at two awaits per iteration: the `emit` of the next
character (whose argument `q["text"][q["index"]]` is read before the
suspension) and the cadence `sleep`.  A task is therefore a two-phase
machine: `check` (re-check room/quiz/active/index, emit the character) and
`bump` (increment `index`, go back to sleep).  Anything may be scheduled
between the two phases.  The `bump` phase increments the index of the
room's current quiz; the source increments the captured dict object, which
is that same quiz unless `next_question`/`clear_display` replaced it in
the gap — a gap no schedule in this development exercises. -/

inductive Phase where
  | check
  | bump
deriving DecidableEq, Repr

structure RTask where
  room : String
  phase : Phase
  alive : Bool
deriving DecidableEq, Repr

structure Sys where
  rooms : Registry
  tasks : List RTask
  log : List OutMsg
deriving DecidableEq

/-- One scheduler step of the `i`-th `char_loop` task. -/
def char_loop_step (s : Sys) (i : Nat) : Sys :=
  match s.tasks.get? i with
  | none => s
  | some t =>
    if !t.alive then s
    else
      match t.phase with
      | .check =>
        let die := { s with tasks := s.tasks.set i { t with alive := false } }
        match alookup s.rooms t.room with
        | none => die
        | some r =>
          match r.quiz with
          | none => die
          | some q =>
            if q.active && decide (q.index < q.text.data.length) then
              { s with
                tasks := s.tasks.set i { t with phase := .bump }
                log := s.log ++ [.charMsg (.toRoom t.room) (q.text.data.getD q.index ' ')] }
            else die
      | .bump =>
        let rooms' :=
          match alookup s.rooms t.room with
          | some r =>
            match r.quiz with
            | some q => aset s.rooms t.room { r with quiz := some { q with index := q.index + 1 } }
            | none => s.rooms
          | none => s.rooms
        { s with rooms := rooms', tasks := s.tasks.set i { t with phase := .check } }

/-- Fold a handler result into the system: new registry, appended log,
freshly spawned `char_loop` tasks. -/
def applyH (s : Sys) (h : HOut) : Sys :=
  { rooms := h.rooms
    tasks := s.tasks ++ h.spawned.map (fun rm => { room := rm, phase := .check, alive := true })
    log := s.log ++ h.out }

/-- The closed alphabet of inbound events plus the two background
processes' steps. -/
inductive Ev where
  | create (sid : String) (d : CreateData)
  | join (sid : String) (d : JoinData)
  | leave (sid roomId : String) (now : Nat)
  | disc (sid : String)
  | nextQ (sid roomId : String)
  | buzzEv (sid roomId : String)
  | wrongEv (sid roomId : String)
  | resumeEv (sid roomId : String)
  | timeoutEv (sid roomId : String)
  | judgeEv (sid roomId : String)
  | clearEv (sid roomId : String)
  | endEv (sid roomId : String)
  | closeEv (sid roomId : String)
  | syncEv (sid roomId : String)
  | tick (now : Nat)
  | taskStep (i : Nat)
deriving DecidableEq, Repr

/-- Dispatch (one unit of the cooperative scheduler). -/
def step (s : Sys) : Ev → Sys
  | .create sid d => applyH s (create_room sid d s.rooms)
  | .join sid d => applyH s (join_room sid d s.rooms)
  | .leave sid roomId now => applyH s (leave_room sid roomId now s.rooms)
  | .disc sid => applyH s (disconnect sid s.rooms)
  | .nextQ sid roomId => applyH s (next_question sid roomId s.rooms)
  | .buzzEv sid roomId => applyH s (buzz sid roomId s.rooms)
  | .wrongEv sid roomId => applyH s (wrong sid roomId s.rooms)
  | .resumeEv sid roomId => applyH s (resume sid roomId s.rooms)
  | .timeoutEv sid roomId => applyH s (timeout sid roomId s.rooms)
  | .judgeEv sid roomId => applyH s (judge sid roomId s.rooms)
  | .clearEv sid roomId => applyH s (clear_display sid roomId s.rooms)
  | .endEv sid roomId => applyH s (end_game sid roomId s.rooms)
  | .closeEv sid roomId => applyH s (close_room sid roomId s.rooms)
  | .syncEv sid roomId => applyH s (request_sync sid roomId s.rooms)
  | .tick now => { s with rooms := cleanup_pass now s.rooms }
  | .taskStep i => char_loop_step s i

/-- A server run from the empty registry at startup. -/
def run (evs : List Ev) : Sys :=
  evs.foldl step { rooms := [], tasks := [], log := [] }

/-! ### Helper lemmas about the search functions -/

theorem findBySidP_mem :
    ∀ {ps : List (String × Player)} {sid uid : String} {p : Player},
      findBySidP ps sid = some (uid, p) → (uid, p) ∈ ps ∧ p.sid = some sid := by
  intro ps
  induction ps with
  | nil => intro sid uid p h; simp [findBySidP] at h
  | cons kv rest ih =>
    intro sid uid p h
    by_cases hs : kv.2.sid = some sid
    · simp only [findBySidP, if_pos hs, Option.some.injEq] at h
      subst h
      exact ⟨List.mem_cons_self _ _, hs⟩
    · simp only [findBySidP, if_neg hs] at h
      obtain ⟨hmem, hsid⟩ := ih h
      exact ⟨List.mem_cons_of_mem _ hmem, hsid⟩

theorem findByName_mem :
    ∀ {ps : List (String × Player)} {nm uid : String} {p : Player},
      findByName ps nm = some (uid, p) → (uid, p) ∈ ps ∧ p.name = nm := by
  intro ps
  induction ps with
  | nil => intro nm uid p h; simp [findByName] at h
  | cons kv rest ih =>
    intro nm uid p h
    by_cases hs : kv.2.name = nm
    · simp only [findByName, if_pos hs, Option.some.injEq] at h
      subst h
      exact ⟨List.mem_cons_self _ _, hs⟩
    · simp only [findByName, if_neg hs] at h
      obtain ⟨hmem, hsid⟩ := ih h
      exact ⟨List.mem_cons_of_mem _ hmem, hsid⟩

theorem mem_alookup_isSome {α : Type} {l : List (String × α)} {kv : String × α}
    (h : kv ∈ l) : (alookup l kv.1).isSome = true := by
  induction l with
  | nil => simp at h
  | cons kv' rest ih =>
    by_cases hk : kv'.1 = kv.1
    · simp [alookup, hk]
    · rcases List.mem_cons.mp h with h1 | h1
      · subst h1; simp at hk
      · simp [alookup, hk, ih h1]

theorem countActive_zero {ps : List (String × Player)} (h : countActive ps = 0) :
    ∀ kv ∈ ps, kv.2.sid = none := by
  intro kv hkv
  by_contra hne
  have hsome : kv.2.sid.isSome = true := Option.isSome_iff_ne_none.mpr hne
  have hmem : kv ∈ ps.filter (fun kv => kv.2.sid.isSome) :=
    List.mem_filter.mpr ⟨hkv, hsome⟩
  have hpos : 0 < (ps.filter (fun kv => kv.2.sid.isSome)).length :=
    List.length_pos.mpr (List.ne_nil_of_mem hmem)
  rw [countActive] at h
  omega

theorem aset_aset {α : Type} (l : List (String × α)) (k : String) (v v' : α) :
    aset (aset l k v) k v' = aset l k v' := by
  induction l with
  | nil => simp [aset]
  | cons kv rest ih =>
    by_cases hk : kv.1 = k
    · simp [aset, hk]
    · simp [aset, hk, ih]

/-! ### Concrete scenarios used to settle the claims -/

/-- A two-question csv source. -/
def csvTwo : FileContent := .str "question,answer\nQ1,A1\nQ2,A2"

/-- A one-question csv source whose question text is the single unit `a`. -/
def csvOne : FileContent := .str "question,answer\na,x"

/-- Host `h` (connection `s0`) creates room `R1`; contestant `p1`
(connection `s1`) joins; the first question is issued and `p1` buzzes. -/
def c2base : List Ev :=
  [.create "s0" { roomId := "R1", name := "H", userId := "h", fileContent := csvTwo },
   .join "s1" { roomId := "R1", name := "P1", userId := "p1" },
   .nextQ "s0" "R1", .buzzEv "s1" "R1"]

/-- The same prefix, followed by the transport-level disconnection of the
buzz holder's connection. -/
def c2evs : List Ev := c2base ++ [.disc "s1"]

/-- The same racing prefix with a second contestant `p2` (connection `s2`);
`p1` holds the buzz. -/
def c3base : List Ev :=
  [.create "s0" { roomId := "R1", name := "H", userId := "h", fileContent := csvTwo },
   .join "s1" { roomId := "R1", name := "P1", userId := "p1" },
   .join "s2" { roomId := "R1", name := "P2", userId := "p2" },
   .nextQ "s0" "R1", .buzzEv "s1" "R1"]

def c4base : List Ev := c2base ++ [.wrongEv "s0" "R1"]

def c6base : List Ev :=
  [.create "s0" { roomId := "R1", name := "H", userId := "h", fileContent := csvOne },
   .nextQ "s0" "R1"]

/-- The reveal-duplication schedule: issue the question (spawning reveal
task 0), send `resume` before task 0 ever runs (spawning task 1), then let
both tasks pass the emit phase before either increments the index. -/
def c9evs : List Ev :=
  [.create "s0" { roomId := "R1", name := "H", userId := "h", fileContent := csvOne },
   .nextQ "s0" "R1", .resumeEv "s0" "R1",
   .taskStep 0, .taskStep 1, .taskStep 0, .taskStep 1]

/-! ### The claims -/

/-- C2 counterexample: in the reachable state where contestant `p1` holds
the buzz, the transport-level disconnection of `p1`'s connection keeps the
record and marks it offline, but the holder is NOT cleared, the buzzer
stays closed, the room stays in state `buzzed`, and nothing at all is
emitted — contradicting the claimed recovery (clear holder, reopen buzzer,
state `asking`, host notification). -/
theorem C2_disconnect_no_recovery_cex :
    ((run c2evs).rooms.map (fun kv =>
        (kv.1, kv.2.state, kv.2.quiz.map Quiz.buzzed_sid, kv.2.quiz.map Quiz.active,
          alookup kv.2.players "p1"))
      = [("R1", "buzzed", some (some "p1"), some false,
          some { name := "P1", score := 0, sid := none })]) ∧
    (run c2evs).log = (run c2base).log := by
  decide

/-- How one player entry may change when connection `s` disconnects: same
key, name and score; the handle is untouched, or was `s` and is now the
offline marker. -/
def pRel (s : String) (a b : String × Player) : Prop :=
  b.1 = a.1 ∧ b.2.name = a.2.name ∧ b.2.score = a.2.score ∧
    (b.2.sid = a.2.sid ∨ (a.2.sid = some s ∧ b.2.sid = none))

/-- How one room may change when connection `s` disconnects: everything —
id, host, questions, progress, quiz (holder included), state, `empty_at` —
is identical, and the players relate pointwise by `pRel`. -/
def dRoomRel (s : String) (a b : String × Room) : Prop :=
  b.1 = a.1 ∧ b.2.master_user_id = a.2.master_user_id ∧
    b.2.master_name = a.2.master_name ∧ b.2.questions = a.2.questions ∧
    b.2.current = a.2.current ∧ b.2.quiz = a.2.quiz ∧ b.2.state = a.2.state ∧
    b.2.empty_at = a.2.empty_at ∧ List.Forall₂ (pRel s) a.2.players b.2.players

theorem pRel_refl (s : String) (ps : List (String × Player)) : List.Forall₂ (pRel s) ps ps := by
  induction ps with
  | nil => exact List.Forall₂.nil
  | cons kv rest ih => exact List.Forall₂.cons ⟨rfl, rfl, rfl, Or.inl rfl⟩ ih

theorem discPlayers_rel (s : String) :
    ∀ ps ps', discPlayers ps s = some ps' → List.Forall₂ (pRel s) ps ps' := by
  intro ps
  induction ps with
  | nil => intro ps' h; simp [discPlayers] at h
  | cons kv rest ih =>
    obtain ⟨uid, p⟩ := kv
    intro ps' h
    by_cases hs : p.sid = some s
    · simp [discPlayers, hs] at h
      subst h
      exact List.Forall₂.cons ⟨rfl, rfl, rfl, Or.inr ⟨hs, rfl⟩⟩ (pRel_refl s rest)
    · simp [discPlayers, hs] at h
      obtain ⟨ps1, h1, h2⟩ := h
      subst h2
      exact List.Forall₂.cons ⟨rfl, rfl, rfl, Or.inl rfl⟩ (ih ps1 h1)

theorem discRooms_rel (s : String) :
    ∀ rs, List.Forall₂ (dRoomRel s) rs (discRooms s rs) := by
  intro rs
  induction rs with
  | nil => exact List.Forall₂.nil
  | cons kv rest ih =>
    obtain ⟨rid, r⟩ := kv
    cases hd : discPlayers r.players s with
    | none =>
      simp only [discRooms, hd]
      exact List.Forall₂.cons
        ⟨rfl, rfl, rfl, rfl, rfl, rfl, rfl, rfl, pRel_refl s r.players⟩ ih
    | some ps =>
      simp only [discRooms, hd]
      exact List.Forall₂.cons
        ⟨rfl, rfl, rfl, rfl, rfl, rfl, rfl, rfl, discPlayers_rel s r.players ps hd⟩
        (List.forall₂_same.mpr
          (fun kv _ => ⟨rfl, rfl, rfl, rfl, rfl, rfl, rfl, rfl, pRel_refl s kv.2.players⟩))

/-- C2 as amended (see `C2_disconnect_no_recovery_cex` for what the source
actually does in the claimed scenario). -/
theorem C2_disconnect_marks_offline_only (s : String) (rooms : Registry) :
    disconnect s rooms = hOk (discRooms s rooms) [] ∧
      List.Forall₂ (dRoomRel s) rooms (discRooms s rooms) :=
  ⟨rfl, discRooms_rel s rooms⟩

/-- Witness for `C2_disconnect_marks_offline_only` at the concrete
counterexample registry. -/
theorem C2_disconnect_marks_offline_only_witness :
    disconnect "s1" (run c2base).rooms = hOk (discRooms "s1" (run c2base).rooms) [] ∧
      List.Forall₂ (dRoomRel "s1") (run c2base).rooms (discRooms "s1" (run c2base).rooms) :=
  C2_disconnect_marks_offline_only "s1" (run c2base).rooms

/-- C3 counterexample: `s2` is the connection of contestant `p2`, not of
the host (`s0`); yet a `judge` from `s2` awards `p1` ten points and moves
the room to `show_answer`, a `resume` from `s2` reopens the buzzer and
returns the room to `asking`, and a ranking request from `s2` moves the
room to `finished` — all three claimed-host-only events take full effect
for a non-host sender. -/
theorem C3_nonhost_events_take_effect_cex :
    ((run c3base).rooms.map (fun kv =>
        (kv.2.master_user_id, (alookup kv.2.players "h").map Player.sid,
          (alookup kv.2.players "p2").map Player.sid,
          (alookup kv.2.players "p1").map Player.score, kv.2.state))
      = [("h", some (some "s0"), some (some "s2"), some 0, "buzzed")]) ∧
    ((run (c3base ++ [.judgeEv "s2" "R1"])).rooms.map (fun kv =>
        ((alookup kv.2.players "p1").map Player.score, kv.2.state))
      = [(some 10, "show_answer")]) ∧
    ((run (c3base ++ [.resumeEv "s2" "R1"])).rooms.map (fun kv =>
        (kv.2.state, kv.2.quiz.map Quiz.active))
      = [("asking", some true)]) ∧
    ((run (c3base ++ [.endEv "s2" "R1"])).rooms.map (fun kv => kv.2.state)
      = [("finished")]) := by
  decide

/-- C3 as amended: `judge`, `resume` and `end_game` never read the sender
at all — the handler result is identical for every sender connection (host
or not), and no error is surfaced to anyone.  Only `next_question`,
`clear_display` and `close_room` check the sender against the host's
stored handle. -/
theorem C3_judge_resume_ranking_sender_independent
    (sid sid' roomId : String) (rooms : Registry) :
    judge sid roomId rooms = judge sid' roomId rooms ∧
      resume sid roomId rooms = resume sid' roomId rooms ∧
      end_game sid roomId rooms = end_game sid' roomId rooms :=
  ⟨rfl, rfl, rfl⟩

/-- C4 counterexample: in the reachable `buzzed` state, `wrong` clears the
holder but leaves the room in state `wrong` (not `asking`) with the buzzer
still closed (`active = false`), and a subsequent buzz by a known player
is a complete no-op (nothing changes, nothing is emitted, no reveal task
is started) — contradicting the claimed reopen/resume/`asking`. -/
theorem C4_wrong_does_not_reopen_cex :
    ((run c4base).rooms.map (fun kv =>
        (kv.2.state, kv.2.quiz.map Quiz.active, kv.2.quiz.map Quiz.buzzed_sid))
      = [("wrong", some false, some none)]) ∧
    run (c4base ++ [.buzzEv "s1" "R1"]) = run c4base := by
  decide

/-- C6 counterexample: room `R1` holds one question and `current = 0` is
already the last index; a further host `next_question` still mutates the
room, incrementing `current` to `1 = length(questions)`, which exceeds
`length(questions) - 1` — contradicting both the claimed no-effect and the
claimed upper bound. -/
theorem C6_next_question_past_end_cex :
    ((run c6base).rooms.map (fun kv => (kv.2.current, kv.2.questions.length)) = [(0, 1)]) ∧
    ((run (c6base ++ [.nextQ "s0" "R1"])).rooms.map
        (fun kv => (kv.2.current, kv.2.questions.length))
      = [(1, 1)]) := by
  decide

/-- C7: the three invalid question sources at room creation, evaluated on
an empty registry.  Zero data rows and missing `question`/`answer` columns
are answered with a validation `error_msg` to the creating connection and
no room is installed; but undecodable bytes (here `0xFF 0xFF`, invalid in
both UTF-8 and CP932) make `parse_questions` return a bare `[]` whose
tuple unpacking raises `ValueError`: the handler dies with NO error
message delivered — the room is still not created. -/
theorem C7_create_room_invalid_sources :
    (create_room "s0" ⟨"R1", "H", "h", .bytes [0xFF, 0xFF]⟩ [] = ⟨[], [], [], true⟩) ∧
    (create_room "s0" ⟨"R1", "H", "h", .str "question,answer"⟩ []
      = hOk [] [.errorMsg (.toSid (some "s0")) "データエラー：問題データが0件です。"]) ∧
    (create_room "s0" ⟨"R1", "H", "h", .str "q,a\n1,2"⟩ []
      = hOk [] [.errorMsg (.toSid (some "s0"))
          ("フォーマットエラー：必須列(question, answer)がありません。現在の列: [\x27q\x27, \x27a\x27]")]) := by
  decide

/-- The room `buzz` writes on acceptance: buzzer closed, holder recorded,
state `buzzed`. -/
def buzzedRoom (r : Room) (q : Quiz) (uid : String) : Room :=
  { r with quiz := some { q with active := false, buzzed_sid := some uid }, state := "buzzed" }

/-- C1: during an open-buzzer window (quiz active, no holder recorded, in a
room whose player identities are nonempty tokens), a buzz from a
connection that maps to no player of the room is a silent no-op; a buzz
from a connection that maps to a player is accepted: it records exactly
that player as holder, closes the buzzer, moves the room to `buzzed`, and
every later buzz against the resulting room — from anyone — is a silent
no-op.  Hence at most one buzz per open-buzzer window records a holder. -/
theorem C1_buzz_accept_iff_known_player
    (rooms : Registry) (roomId sid : String) (r : Room) (q : Quiz)
    (hr : alookup rooms roomId = some r) (hq : r.quiz = some q)
    (hact : q.active = true) (hhold : q.buzzed_sid = none)
    (hids : ∀ kv ∈ r.players, kv.1 ≠ "") :
    (findBySidP r.players sid = none → buzz sid roomId rooms = hOk rooms []) ∧
    (∀ uid p, findBySidP r.players sid = some (uid, p) →
      buzz sid roomId rooms
        = hOk (aset rooms roomId (buzzedRoom r q uid))
            [.buzzedMsg (.toRoom roomId) p.name, .enableBuzz (.toRoom roomId) false] ∧
      ∀ sid2, buzz sid2 roomId (aset rooms roomId (buzzedRoom r q uid))
        = hOk (aset rooms roomId (buzzedRoom r q uid)) []) := by
  constructor
  · intro hfind
    simp [buzz, hr, hq, hact, hhold, pyTruthy, hfind]
  · intro uid p hfind
    have hmem := findBySidP_mem hfind
    have huid : uid ≠ "" := hids (uid, p) hmem.1
    constructor
    · simp [buzz, hr, hq, hact, hhold, pyTruthy, hfind, huid, buzzedRoom]
    · intro sid2
      have hr2 : alookup (aset rooms roomId (buzzedRoom r q uid)) roomId
          = some (buzzedRoom r q uid) := alookup_aset_self rooms roomId _
      simp only [buzz, hr2]
      simp [buzzedRoom, pyTruthy]

/-- Witness scenario for C1: a room with host `h` and contestant `p1`, an
open buzzer, and the quiz half revealed. -/
def c1room : Room :=
  ⟨"h", "H", [("h", ⟨"H", 0, some "s0"⟩), ("p1", ⟨"P1", 0, some "s1"⟩)],
    [⟨some "Q1", some "A1"⟩], 0, some ⟨"Q1", "A1", 1, true, none⟩, "asking", none⟩

theorem C1_buzz_accept_iff_known_player_witness :
    buzz "s1" "R1" [("R1", c1room)]
      = hOk (aset [("R1", c1room)] "R1" (buzzedRoom c1room ⟨"Q1", "A1", 1, true, none⟩ "p1"))
          [.buzzedMsg (.toRoom "R1") "P1", .enableBuzz (.toRoom "R1") false] ∧
    buzz "s9" "R1" (aset [("R1", c1room)] "R1" (buzzedRoom c1room ⟨"Q1", "A1", 1, true, none⟩ "p1"))
      = hOk (aset [("R1", c1room)] "R1" (buzzedRoom c1room ⟨"Q1", "A1", 1, true, none⟩ "p1")) [] := by
  have h := C1_buzz_accept_iff_known_player [("R1", c1room)] "R1" "s1" c1room
    ⟨"Q1", "A1", 1, true, none⟩ (by decide) (by decide) (by decide) (by decide) (by decide)
  have hb := h.2 "p1" ⟨"P1", 0, some "s1"⟩ (by decide)
  exact ⟨hb.1, hb.2 "s9"⟩

/-- C5: judging with a recorded holder (the code's notion of "recorded" is
a truthy `buzzed_sid`, so a nonempty identity) adds exactly 10 to that
player's score and leaves every other player's entry untouched; judging
with no recorded holder leaves the players dict untouched.  (The
hypothesis that the host's record exists matches the invariant of C10 and
keeps the handler from raising at the `sync_state` lookup.) -/
theorem C5_judge_scoring
    (rooms : Registry) (roomId sid : String) (r : Room) (q : Quiz)
    (hr : alookup rooms roomId = some r) (hq : r.quiz = some q)
    (hm : (alookup r.players r.master_user_id).isSome = true) :
    (∀ uid p, q.buzzed_sid = some uid → uid ≠ "" → alookup r.players uid = some p →
      (judge sid roomId rooms).raised = false ∧
      ((alookup (judge sid roomId rooms).rooms roomId).map (fun r2 => alookup r2.players uid)
        = some (some { p with score := p.score + 10 })) ∧
      (∀ uid2, uid2 ≠ uid →
        (alookup (judge sid roomId rooms).rooms roomId).map (fun r2 => alookup r2.players uid2)
          = some (alookup r.players uid2))) ∧
    (pyTruthy q.buzzed_sid = false →
      (judge sid roomId rooms).raised = false ∧
      (alookup (judge sid roomId rooms).rooms roomId).map (fun r2 => r2.players)
        = some r.players) := by
  constructor
  · intro uid p hbz huid hp
    have haw : awardPlayers r.players q.buzzed_sid
        = some (aset r.players uid { p with score := p.score + 10 }) := by
      simp [awardPlayers, hbz, huid, hp]
    have hm1 : (alookup (aset r.players uid { p with score := p.score + 10 })
        r.master_user_id).isSome = true := by
      by_cases hmu : r.master_user_id = uid
      · rw [hmu, alookup_aset_self]; rfl
      · rw [alookup_aset_ne _ _ _ _ hmu]; exact hm
    obtain ⟨pm, hpm⟩ := Option.isSome_iff_exists.mp hm1
    by_cases hlast : r.current = (r.questions.length : Int) - 1
    · simp only [judge, hr, hq, haw, if_pos hlast, hpm]
      refine ⟨rfl, ?_, ?_⟩
      · simp [hOk, alookup_aset_self]
      · intro uid2 hne
        simp [hOk, alookup_aset_self, alookup_aset_ne _ _ _ _ hne]
    · simp only [judge, hr, hq, haw, if_neg hlast]
      refine ⟨rfl, ?_, ?_⟩
      · simp [hOk, alookup_aset_self]
      · intro uid2 hne
        simp [hOk, alookup_aset_self, alookup_aset_ne _ _ _ _ hne]
  · intro hfalse
    have haw : awardPlayers r.players q.buzzed_sid = some r.players := by
      cases hb : q.buzzed_sid with
      | none => simp [awardPlayers]
      | some uid =>
        have : uid = "" := by
          rw [hb] at hfalse
          simpa [pyTruthy] using hfalse
        simp [awardPlayers, this]
    obtain ⟨pm, hpm⟩ := Option.isSome_iff_exists.mp hm
    by_cases hlast : r.current = (r.questions.length : Int) - 1
    · simp only [judge, hr, hq, haw, if_pos hlast, hpm]
      exact ⟨rfl, by simp [hOk, alookup_aset_self]⟩
    · simp only [judge, hr, hq, haw, if_neg hlast]
      exact ⟨rfl, by simp [hOk, alookup_aset_self]⟩

/-- Witness scenario for C5: the buzzed room of C1's scenario (judging with
holder `p1`), and a holderless variant. -/
def c5room : Room :=
  ⟨"h", "H", [("h", ⟨"H", 0, some "s0"⟩), ("p1", ⟨"P1", 0, some "s1"⟩)],
    [⟨some "Q1", some "A1"⟩, ⟨some "Q2", some "A2"⟩], 0,
    some ⟨"Q1", "A1", 1, false, some "p1"⟩, "buzzed", none⟩

def c5roomNoHolder : Room :=
  ⟨"h", "H", [("h", ⟨"H", 0, some "s0"⟩), ("p1", ⟨"P1", 0, some "s1"⟩)],
    [⟨some "Q1", some "A1"⟩, ⟨some "Q2", some "A2"⟩], 0,
    some ⟨"Q1", "A1", 1, false, none⟩, "timeout", none⟩

theorem C5_judge_scoring_witness :
    ((judge "s0" "R1" [("R1", c5room)]).raised = false ∧
      ((alookup (judge "s0" "R1" [("R1", c5room)]).rooms "R1").map
          (fun r2 => alookup r2.players "p1")
        = some (some ⟨"P1", 10, some "s1"⟩)) ∧
      ((alookup (judge "s0" "R1" [("R1", c5room)]).rooms "R1").map
          (fun r2 => alookup r2.players "h")
        = some (alookup c5room.players "h"))) ∧
    ((judge "s0" "R1" [("R1", c5roomNoHolder)]).raised = false ∧
      (alookup (judge "s0" "R1" [("R1", c5roomNoHolder)]).rooms "R1").map
          (fun r2 => r2.players)
        = some c5roomNoHolder.players) := by
  have h1 := C5_judge_scoring [("R1", c5room)] "R1" "s0" c5room
    ⟨"Q1", "A1", 1, false, some "p1"⟩ (by decide) (by decide) (by decide)
  have hi := h1.1 "p1" ⟨"P1", 0, some "s1"⟩ (by decide) (by decide) (by decide)
  have h2 := C5_judge_scoring [("R1", c5roomNoHolder)] "R1" "s0" c5roomNoHolder
    ⟨"Q1", "A1", 1, false, none⟩ (by decide) (by decide) (by decide)
  exact ⟨⟨hi.1, hi.2.1, hi.2.2 "h" (by decide)⟩, h2.2 (by decide)⟩

/-- The room `wrong` writes: holder cleared, state `wrong`, buzzer still
closed exactly as it was. -/
def wrongRoom (r : Room) (q : Quiz) : Room :=
  { r with quiz := some { q with buzzed_sid := none }, state := "wrong" }

/-- The room a subsequent `resume` then writes: buzzer reactivated, state
`asking`. -/
def resumedRoom (r : Room) (q : Quiz) : Room :=
  { r with quiz := some { q with buzzed_sid := none, active := true }, state := "asking" }

/-- C4 as amended: `wrong` only clears the holder, sets state `wrong` and
broadcasts `clear_buzzed` — the buzzer stays closed and no reveal task is
started; a separate `resume` then reopens the buzzer, restarts the reveal
task and moves the room to `asking`, after which a buzz from a connection
mapping to a player (with a nonempty id) is accepted again. -/
theorem C4_wrong_then_resume_reopens
    (rooms : Registry) (roomId sid sid2 sid3 : String) (r : Room) (q : Quiz)
    (uid : String) (p : Player)
    (hr : alookup rooms roomId = some r) (hq : r.quiz = some q)
    (hfind : findBySidP r.players sid3 = some (uid, p)) (huid : uid ≠ "") :
    (wrong sid roomId rooms
      = hOk (aset rooms roomId (wrongRoom r q)) [.clearBuzzed (.toRoom roomId)]) ∧
    ((wrongRoom r q).state = "wrong" ∧
      (wrongRoom r q).quiz = some { q with buzzed_sid := none }) ∧
    (resume sid2 roomId (aset rooms roomId (wrongRoom r q))
      = ⟨aset rooms roomId (resumedRoom r q), [.enableBuzz (.toRoom roomId) true],
          [roomId], false⟩) ∧
    (buzz sid3 roomId (aset rooms roomId (resumedRoom r q))
      = hOk (aset rooms roomId
            (buzzedRoom (resumedRoom r q) { q with buzzed_sid := none, active := true } uid))
          [.buzzedMsg (.toRoom roomId) p.name, .enableBuzz (.toRoom roomId) false]) := by
  refine ⟨?_, ⟨rfl, rfl⟩, ?_, ?_⟩
  · simp [wrong, hr, hq, wrongRoom]
  · have hr2 : alookup (aset rooms roomId (wrongRoom r q)) roomId = some (wrongRoom r q) :=
      alookup_aset_self rooms roomId _
    simp only [resume, hr2]
    simp [wrongRoom, resumedRoom, aset_aset]
  · have hr3 : alookup (aset rooms roomId (resumedRoom r q)) roomId = some (resumedRoom r q) :=
      alookup_aset_self rooms roomId _
    have hfind3 : findBySidP (resumedRoom r q).players sid3 = some (uid, p) := hfind
    simp only [buzz, hr3]
    simp [resumedRoom, pyTruthy, hfind, hfind3, huid, buzzedRoom, aset_aset]

theorem C4_wrong_then_resume_reopens_witness :
    (wrong "s0" "R1" [("R1", c5room)]
      = hOk (aset [("R1", c5room)] "R1" (wrongRoom c5room ⟨"Q1", "A1", 1, false, some "p1"⟩))
          [.clearBuzzed (.toRoom "R1")]) ∧
    ((wrongRoom c5room ⟨"Q1", "A1", 1, false, some "p1"⟩).state = "wrong" ∧
      (wrongRoom c5room ⟨"Q1", "A1", 1, false, some "p1"⟩).quiz
        = some ⟨"Q1", "A1", 1, false, none⟩) ∧
    (resume "s0" "R1"
        (aset [("R1", c5room)] "R1" (wrongRoom c5room ⟨"Q1", "A1", 1, false, some "p1"⟩))
      = ⟨aset [("R1", c5room)] "R1" (resumedRoom c5room ⟨"Q1", "A1", 1, false, some "p1"⟩),
          [.enableBuzz (.toRoom "R1") true], ["R1"], false⟩) ∧
    (buzz "s1" "R1"
        (aset [("R1", c5room)] "R1" (resumedRoom c5room ⟨"Q1", "A1", 1, false, some "p1"⟩))
      = hOk (aset [("R1", c5room)] "R1"
            (buzzedRoom (resumedRoom c5room ⟨"Q1", "A1", 1, false, some "p1"⟩)
              ⟨"Q1", "A1", 1, true, none⟩ "p1"))
          [.buzzedMsg (.toRoom "R1") "P1", .enableBuzz (.toRoom "R1") false]) :=
  C4_wrong_then_resume_reopens [("R1", c5room)] "R1" "s0" "s0" "s1" c5room
    ⟨"Q1", "A1", 1, false, some "p1"⟩ "p1" ⟨"P1", 0, some "s1"⟩
    (by decide) (by decide) (by decide) (by decide)

/-- C6 as amended: a host `next_question` when no questions remain (the
incremented index would reach `length(questions)`) still increments
`currentIndex` by one — past the end — and changes nothing else, emitting
nothing; `currentIndex` is therefore not bounded by `length-1`. -/
theorem C6_next_question_increments_past_end
    (rooms : Registry) (roomId sid : String) (r : Room) (pm : Player)
    (hr : alookup rooms roomId = some r)
    (hpm : alookup r.players r.master_user_id = some pm)
    (hsid : pm.sid = some sid)
    (hend : (r.questions.length : Int) ≤ r.current + 1) :
    next_question sid roomId rooms
      = hOk (aset rooms roomId { r with current := r.current + 1 }) [] := by
  have hcond : ¬ pm.sid ≠ some sid := by simp [hsid]
  simp only [next_question, hr, hpm, if_neg hcond, ge_iff_le, if_pos hend]

/-- Witness scenario for C6: the last (single) question has been issued and
judged; a further `next_question` has nothing left to issue. -/
def c6room : Room :=
  ⟨"h", "H", [("h", ⟨"H", 0, some "s0"⟩)], [⟨some "a", some "x"⟩], 0,
    some ⟨"a", "x", 1, false, none⟩, "all_done", none⟩

theorem C6_next_question_increments_past_end_witness :
    next_question "s0" "R1" [("R1", c6room)]
      = hOk (aset [("R1", c6room)] "R1" { c6room with current := c6room.current + 1 }) [] :=
  C6_next_question_increments_past_end [("R1", c6room)] "R1" "s0" c6room ⟨"H", 0, some "s0"⟩
    (by decide) (by decide) (by decide) (by decide)

/-- C9: the source enforces no at-most-one-reveal-process invariant.  After
`next_question` (spawning reveal task 0), a `resume` delivered before task
0 ever runs spawns task 1 while task 0 is still live — two live reveal
tasks for the same ActiveQuestion.  Under the legal cooperative schedule
that lets both tasks pass their emit await before either increments,
`revealIndex` reaches `2 > 1 = length(text)` and the single text unit is
broadcast twice, so the concatenated units are not the text. -/
theorem C9_duplicate_reveal_processes :
    ((run (c9evs.take 3)).tasks
      = [⟨"R1", Phase.check, true⟩, ⟨"R1", Phase.check, true⟩]) ∧
    ((run c9evs).rooms.map (fun kv =>
        (kv.2.quiz.map Quiz.index, kv.2.quiz.map (fun q => q.text.data.length)))
      = [(some 2, some 1)]) ∧
    ((run c9evs).log.filter (fun m =>
        match m with
        | .charMsg _ _ => true
        | _ => false)
      = [.charMsg (.toRoom "R1") 'a', .charMsg (.toRoom "R1") 'a']) := by
  decide

/-! ### The reachability invariant

Every reachable room keeps the host's record among its players
(`next_question`, `clear_display`, `close_room` and `judge` dereference it
unguarded), and `empty_at` is only ever set while no member is connected. -/

def roomInv (r : Room) : Prop :=
  (alookup r.players r.master_user_id).isSome = true ∧
  (r.empty_at ≠ none → ∀ kv ∈ r.players, kv.2.sid = (none : Option String))

def regInv (rs : Registry) : Prop := ∀ kv ∈ rs, roomInv kv.2

theorem regInv_aset {rs : Registry} {rid : String} {r' : Room}
    (h : regInv rs) (h' : roomInv r') : regInv (aset rs rid r') := by
  intro kv hkv
  rcases mem_aset hkv with h1 | h1
  · rw [h1]; exact h'
  · exact h kv h1

theorem regInv_aerase {rs : Registry} {rid : String} (h : regInv rs) :
    regInv (aerase rs rid) :=
  fun kv hkv => h kv (mem_aerase hkv)

theorem roomInv_same {r r' : Room} (hinv : roomInv r)
    (h1 : r'.master_user_id = r.master_user_id) (h2 : r'.players = r.players)
    (h3 : r'.empty_at = r.empty_at) : roomInv r' := by
  constructor
  · rw [h2, h1]; exact hinv.1
  · rw [h3, h2]; exact hinv.2

theorem awardPlayers_keys_sids {ps ps1 : List (String × Player)} {holder : Option String}
    (h : awardPlayers ps holder = some ps1) :
    (∀ k, (alookup ps1 k).isSome = (alookup ps k).isSome) ∧
    (∀ kv ∈ ps1, ∃ kv' ∈ ps, kv.2.sid = kv'.2.sid) := by
  cases holder with
  | none =>
    simp only [awardPlayers, Option.some.injEq] at h
    subst h
    exact ⟨fun k => rfl, fun kv hkv => ⟨kv, hkv, rfl⟩⟩
  | some uid =>
    by_cases hu : uid = ""
    · simp only [awardPlayers, if_pos hu, Option.some.injEq] at h
      subst h
      exact ⟨fun k => rfl, fun kv hkv => ⟨kv, hkv, rfl⟩⟩
    · cases hp : alookup ps uid with
      | none => simp [awardPlayers, hu, hp] at h
      | some p =>
        simp only [awardPlayers, if_neg hu, hp, Option.some.injEq] at h
        subst h
        constructor
        · intro k
          by_cases hk : k = uid
          · subst hk; rw [alookup_aset_self, hp]; rfl
          · rw [alookup_aset_ne _ _ _ _ hk]
        · intro kv hkv
          rcases mem_aset hkv with h1 | h1
          · exact ⟨(uid, p), alookup_mem hp, by rw [h1]⟩
          · exact ⟨kv, h1, rfl⟩

theorem roomInv_award {r : Room} {ps1 : List (String × Player)} {holder : Option String}
    (hinv : roomInv r) (haw : awardPlayers r.players holder = some ps1)
    {r' : Room} (h1 : r'.master_user_id = r.master_user_id) (h2 : r'.players = ps1)
    (h3 : r'.empty_at = r.empty_at) : roomInv r' := by
  obtain ⟨hkeys, hsids⟩ := awardPlayers_keys_sids haw
  constructor
  · rw [h2, h1, hkeys]; exact hinv.1
  · rw [h3, h2]
    intro hne kv hkv
    obtain ⟨kv', hkv', hsid⟩ := hsids kv hkv
    rw [hsid]
    exact hinv.2 hne kv' hkv'

theorem regInv_create (sid : String) (d : CreateData) (rs : Registry) (h : regInv rs) :
    regInv (create_room sid d rs).rooms := by
  unfold create_room
  split
  · exact h
  split
  · exact h
  split
  · exact h
  apply regInv_aset h
  constructor
  · simp [alookup]
  · intro hne
    simp at hne

theorem regInv_buzz (sid roomId : String) (rs : Registry) (h : regInv rs) :
    regInv (buzz sid roomId rs).rooms := by
  unfold buzz
  split
  · exact h
  rename_i r hr
  split
  · exact h
  split
  · exact h
  split
  · exact h
  split
  · exact h
  exact regInv_aset h (roomInv_same (h _ (alookup_mem hr)) rfl rfl rfl)

theorem regInv_wrong (sid roomId : String) (rs : Registry) (h : regInv rs) :
    regInv (wrong sid roomId rs).rooms := by
  unfold wrong
  split
  · exact h
  rename_i r hr
  split
  · exact h
  exact regInv_aset h (roomInv_same (h _ (alookup_mem hr)) rfl rfl rfl)

theorem regInv_resume (sid roomId : String) (rs : Registry) (h : regInv rs) :
    regInv (resume sid roomId rs).rooms := by
  unfold resume
  split
  · exact h
  rename_i r hr
  split
  · exact h
  exact regInv_aset h (roomInv_same (h _ (alookup_mem hr)) rfl rfl rfl)

theorem regInv_timeout (sid roomId : String) (rs : Registry) (h : regInv rs) :
    regInv (timeout sid roomId rs).rooms := by
  unfold timeout
  split
  · exact h
  rename_i r hr
  split
  · exact h
  exact regInv_aset h (roomInv_same (h _ (alookup_mem hr)) rfl rfl rfl)

theorem regInv_judge (sid roomId : String) (rs : Registry) (h : regInv rs) :
    regInv (judge sid roomId rs).rooms := by
  unfold judge
  split
  · exact h
  rename_i r hr
  split
  · exact h
  rename_i q hq
  split
  · exact h
  rename_i ps1 haw
  split
  · dsimp only
    split
    · exact regInv_aset h (roomInv_award (h _ (alookup_mem hr)) haw rfl rfl rfl)
    · exact regInv_aset h (roomInv_award (h _ (alookup_mem hr)) haw rfl rfl rfl)
  · exact regInv_aset h (roomInv_award (h _ (alookup_mem hr)) haw rfl rfl rfl)

theorem regInv_clear_display (sid roomId : String) (rs : Registry) (h : regInv rs) :
    regInv (clear_display sid roomId rs).rooms := by
  unfold clear_display
  split
  · exact h
  rename_i r hr
  split
  · exact h
  split
  · exact regInv_aset h (roomInv_same (h _ (alookup_mem hr)) rfl rfl rfl)
  · exact h

theorem regInv_end_game (sid roomId : String) (rs : Registry) (h : regInv rs) :
    regInv (end_game sid roomId rs).rooms := by
  unfold end_game
  split
  · exact h
  rename_i r hr
  exact regInv_aset h (roomInv_same (h _ (alookup_mem hr)) rfl rfl rfl)

theorem regInv_close_room (sid roomId : String) (rs : Registry) (h : regInv rs) :
    regInv (close_room sid roomId rs).rooms := by
  unfold close_room
  split
  · exact h
  split
  · exact h
  split
  · exact regInv_aerase h
  · exact h

theorem regInv_request_sync (sid roomId : String) (rs : Registry) (h : regInv rs) :
    regInv (request_sync sid roomId rs).rooms := by
  unfold request_sync
  split
  · exact h
  · exact h

theorem regInv_nextQ (sid roomId : String) (rs : Registry) (h : regInv rs) :
    regInv (next_question sid roomId rs).rooms := by
  unfold next_question
  split
  · exact h
  rename_i r hr
  split
  · exact h
  rename_i pm hpm
  split
  · exact h
  dsimp only
  split
  · exact regInv_aset h (roomInv_same (h _ (alookup_mem hr)) rfl rfl rfl)
  split
  · exact regInv_aset h (roomInv_same (h _ (alookup_mem hr)) rfl rfl rfl)
  · exact regInv_aset h (roomInv_same (h _ (alookup_mem hr)) rfl rfl rfl)

theorem joinReg_masterInv {sid : String} {d : JoinData} {r1 r2 : Room}
    (hm : (alookup r1.players r1.master_user_id).isSome = true)
    (h : joinReg sid d r1 = some r2) :
    (alookup r2.players r2.master_user_id).isSome = true ∧ r2.empty_at = r1.empty_at := by
  unfold joinReg at h
  by_cases hex : (alookup r1.players d.userId).isSome
  · rw [if_pos hex] at h
    cases hau : alookup r1.players d.userId with
    | none => rw [hau] at hex; simp at hex
    | some p =>
      rw [hau] at h
      cases h
      refine ⟨?_, rfl⟩
      by_cases hmu : r1.master_user_id = d.userId
      · dsimp only; rw [hmu, alookup_aset_self]; rfl
      · dsimp only; rw [alookup_aset_ne _ _ _ _ hmu]; exact hm
  · rw [if_neg hex] at h
    have hnone : alookup r1.players d.userId = none := by
      cases hau : alookup r1.players d.userId with
      | none => rfl
      | some _ => rw [hau] at hex; simp at hex
    cases hfn : findByName r1.players d.name with
    | none =>
      rw [hfn] at h
      cases h
      refine ⟨?_, rfl⟩
      by_cases hmu : r1.master_user_id = d.userId
      · dsimp only; rw [hmu, alookup_aset_self]; rfl
      · dsimp only; rw [alookup_aset_ne _ _ _ _ hmu]; exact hm
    | some ep' =>
      obtain ⟨euid, ep⟩ := ep'
      rw [hfn] at h
      dsimp only at h
      by_cases hoff : ep.sid = none
      · rw [if_pos hoff] at h
        cases h
        have hneu : d.userId ≠ euid := by
          intro heq
          have hsome := mem_alookup_isSome (findByName_mem hfn).1
          rw [← heq, hnone] at hsome
          simp at hsome
        refine ⟨?_, rfl⟩
        dsimp only
        by_cases hmu : r1.master_user_id = euid
        · rw [if_pos hmu, alookup_aerase_ne _ _ _ hneu, alookup_aset_self]; rfl
        · have hmu2 : r1.master_user_id ≠ d.userId := by
            intro heq
            rw [heq, hnone] at hm
            simp at hm
          rw [if_neg hmu, alookup_aerase_ne _ _ _ hmu, alookup_aset_ne _ _ _ _ hmu2]
          exact hm
      · rw [if_neg hoff] at h
        exact Option.noConfusion h

theorem regInv_join (sid : String) (d : JoinData) (rs : Registry) (h : regInv rs) :
    regInv (join_room sid d rs).rooms := by
  cases hr0 : alookup rs d.roomId with
  | none =>
    unfold join_room
    rw [hr0]
    exact h
  | some r0 =>
    have hinv0 : roomInv r0 := h _ (alookup_mem hr0)
    cases hreg : joinReg sid d { r0 with empty_at := none } with
    | none =>
      unfold join_room
      rw [hr0]
      dsimp only
      rw [hreg]
      apply regInv_aset h
      exact ⟨hinv0.1, fun hne => (hne rfl).elim⟩
    | some r2 =>
      obtain ⟨hm2, he2⟩ :=
        @joinReg_masterInv sid d { r0 with empty_at := none } r2 hinv0.1 hreg
      unfold join_room
      rw [hr0]
      dsimp only
      rw [hreg]
      dsimp only
      apply regInv_aset h
      exact ⟨hm2, fun hne => (hne he2).elim⟩

theorem regInv_leave (sid roomId : String) (now : Nat) (rs : Registry) (h : regInv rs) :
    regInv (leave_room sid roomId now rs).rooms := by
  unfold leave_room
  split
  · exact h
  rename_i r hr
  split
  · exact h
  rename_i uid pl hf
  split
  · exact h
  rename_i huid
  split
  · exact h
  rename_i hmu
  have hinv : roomInv r := h _ (alookup_mem hr)
  have hmem := findBySidP_mem hf
  have hempty : r.empty_at = none := by
    cases he : r.empty_at with
    | none => rfl
    | some e =>
      have hall := hinv.2 (by simp [he]) (uid, pl) hmem.1
      rw [hmem.2] at hall
      exact Option.noConfusion hall
  have hmast : r.master_user_id ≠ uid := fun heq => hmu heq.symm
  dsimp only
  split
  · -- the room is empty after the removal: `empty_at` is stamped
    rename_i hcount
    apply regInv_aset h
    constructor
    · cases hqz : r.quiz with
      | none =>
        dsimp only
        rw [alookup_aerase_ne _ _ _ hmast]
        exact hinv.1
      | some q =>
        dsimp only
        split
        · dsimp only
          rw [alookup_aerase_ne _ _ _ hmast]
          exact hinv.1
        · dsimp only
          rw [alookup_aerase_ne _ _ _ hmast]
          exact hinv.1
    · intro _ kv hkv
      exact countActive_zero hcount kv hkv
  · -- members remain connected: `empty_at` stays what it was (`none`)
    rename_i hcount
    apply regInv_aset h
    constructor
    · cases hqz : r.quiz with
      | none =>
        dsimp only
        rw [alookup_aerase_ne _ _ _ hmast]
        exact hinv.1
      | some q =>
        dsimp only
        split
        · dsimp only
          rw [alookup_aerase_ne _ _ _ hmast]
          exact hinv.1
        · dsimp only
          rw [alookup_aerase_ne _ _ _ hmast]
          exact hinv.1
    · cases hqz : r.quiz with
      | none => exact fun hne => (hne hempty).elim
      | some q =>
        dsimp only
        split
        · exact fun hne => (hne hempty).elim
        · exact fun hne => (hne hempty).elim

theorem forall₂_mem_right {α β : Type} {R : α → β → Prop} :
    ∀ {l : List α} {l' : List β}, List.Forall₂ R l l' → ∀ b ∈ l', ∃ a ∈ l, R a b := by
  intro l l' hf
  induction hf with
  | nil => intro b hb; simp at hb
  | cons hab htail ih =>
    intro b hb
    rcases List.mem_cons.mp hb with hb1 | hb1
    · subst hb1
      exact ⟨_, List.mem_cons_self _ _, hab⟩
    · obtain ⟨a, ha, hra⟩ := ih b hb1
      exact ⟨a, List.mem_cons_of_mem _ ha, hra⟩

theorem forall₂_pRel_alookup (s : String) :
    ∀ (ps ps' : List (String × Player)), List.Forall₂ (pRel s) ps ps' →
      ∀ k, (alookup ps' k).isSome = (alookup ps k).isSome := by
  intro ps
  induction ps with
  | nil =>
    intro ps' hf k
    cases hf
    rfl
  | cons a rest ih =>
    intro ps' hf k
    cases hf with
    | cons hab htail =>
      rename_i b l₂
      obtain ⟨hk1, _, _, _⟩ := hab
      by_cases hka : a.1 = k
      · have hkb : b.1 = k := by rw [hk1, hka]
        simp [alookup, hka, hkb]
      · have hkb : ¬ b.1 = k := by rw [hk1]; exact hka
        simp [alookup, hka, hkb, ih l₂ htail k]

theorem forall₂_pRel_offline (s : String) :
    ∀ (ps ps' : List (String × Player)), List.Forall₂ (pRel s) ps ps' →
      (∀ kv ∈ ps, kv.2.sid = (none : Option String)) →
      ∀ kv ∈ ps', kv.2.sid = (none : Option String) := by
  intro ps
  induction ps with
  | nil =>
    intro ps' hf hoff kv hkv
    cases hf
    simp at hkv
  | cons a rest ih =>
    intro ps' hf hoff kv hkv
    cases hf with
    | cons hab htail =>
      rename_i b l₂
      obtain ⟨_, _, _, hsid⟩ := hab
      rcases List.mem_cons.mp hkv with hb1 | hb1
      · subst hb1
        rcases hsid with hs | hs
        · rw [hs]
          exact hoff a (List.mem_cons_self _ _)
        · exact hs.2
      · exact ih l₂ htail (fun kv' hkv' => hoff kv' (List.mem_cons_of_mem _ hkv')) kv hb1

theorem regInv_disc (sid : String) (rs : Registry) (h : regInv rs) :
    regInv (disconnect sid rs).rooms := by
  intro kv hkv
  obtain ⟨kv0, hkv0, hrel⟩ := forall₂_mem_right (discRooms_rel sid rs) kv hkv
  obtain ⟨hk, hmast, _, _, _, _, _, hempty, hps⟩ := hrel
  have hinv0 := h kv0 hkv0
  constructor
  · rw [hmast, forall₂_pRel_alookup sid _ _ hps]
    exact hinv0.1
  · intro hne
    rw [hempty] at hne
    exact forall₂_pRel_offline sid _ _ hps (hinv0.2 hne)

theorem cleanupRoom_inv (now : Nat) {r : Room} (hinv : roomInv r) :
    roomInv (cleanupRoom now r).1 := by
  unfold cleanupRoom
  by_cases hc : countActive r.players = 0
  · rw [if_pos hc]
    cases he : r.empty_at with
    | none => exact ⟨hinv.1, fun _ => countActive_zero hc⟩
    | some e => exact hinv
  · rw [if_neg hc]
    exact ⟨hinv.1, fun hne => (hne rfl).elim⟩

theorem regInv_tick (now : Nat) (rs : Registry) (h : regInv rs) :
    regInv (cleanup_pass now rs) := by
  intro kv hkv
  unfold cleanup_pass at hkv
  obtain ⟨kv1, hkv1, hmap⟩ := List.mem_map.mp hkv
  obtain ⟨hkv2, _⟩ := List.mem_filter.mp hkv1
  obtain ⟨kv0, hkv0, hmap0⟩ := List.mem_map.mp hkv2
  rw [← hmap, ← hmap0]
  dsimp only
  exact cleanupRoom_inv now (h kv0 hkv0)

theorem regInv_taskStep (s : Sys) (i : Nat) (h : regInv s.rooms) :
    regInv (char_loop_step s i).rooms := by
  unfold char_loop_step
  split
  · exact h
  split
  · exact h
  split
  · split
    · exact h
    rename_i r hr
    split
    · exact h
    split
    · exact h
    · exact h
  · dsimp only
    split
    · rename_i r hr
      split
      · exact regInv_aset h (roomInv_same (h _ (alookup_mem hr)) rfl rfl rfl)
      · exact h
    · exact h

theorem step_regInv (s : Sys) (e : Ev) (h : regInv s.rooms) : regInv (step s e).rooms := by
  cases e with
  | create sid d => exact regInv_create sid d s.rooms h
  | join sid d => exact regInv_join sid d s.rooms h
  | leave sid roomId now => exact regInv_leave sid roomId now s.rooms h
  | disc sid => exact regInv_disc sid s.rooms h
  | nextQ sid roomId => exact regInv_nextQ sid roomId s.rooms h
  | buzzEv sid roomId => exact regInv_buzz sid roomId s.rooms h
  | wrongEv sid roomId => exact regInv_wrong sid roomId s.rooms h
  | resumeEv sid roomId => exact regInv_resume sid roomId s.rooms h
  | timeoutEv sid roomId => exact regInv_timeout sid roomId s.rooms h
  | judgeEv sid roomId => exact regInv_judge sid roomId s.rooms h
  | clearEv sid roomId => exact regInv_clear_display sid roomId s.rooms h
  | endEv sid roomId => exact regInv_end_game sid roomId s.rooms h
  | closeEv sid roomId => exact regInv_close_room sid roomId s.rooms h
  | syncEv sid roomId => exact regInv_request_sync sid roomId s.rooms h
  | tick now => exact regInv_tick now s.rooms h
  | taskStep i => exact regInv_taskStep s i h

theorem foldl_regInv :
    ∀ (evs : List Ev) (s : Sys), regInv s.rooms → regInv ((evs.foldl step s).rooms) := by
  intro evs
  induction evs with
  | nil => intro s h; exact h
  | cons e rest ih => intro s h; exact ih (step s e) (step_regInv s e h)

/-- Every reachable registry satisfies the room invariant. -/
theorem run_regInv (evs : List Ev) : regInv (run evs).rooms :=
  foldl_regInv evs _ (fun kv hkv => absurd hkv (List.not_mem_nil kv))

theorem set_empty_none {r : Room} (h : r.empty_at = none) :
    ({ r with empty_at := none } : Room) = r := by
  cases r
  dsimp only at h ⊢
  rw [h]

/-- C8: in every reachable registry, a join request refused with
`NameTaken` (the requested display name belongs to a currently connected
player and the requesting persistent id is unknown) emits exactly one
error message, to the requesting connection only, and returns the registry
COMPLETELY unchanged — including `emptySince`: the handler's unconditional
`r["empty_at"] = None` is provably a no-op here, because a reachable room
can only carry a non-absent `emptySince` while every member is offline,
and a `NameTaken` refusal requires a connected member. -/
theorem C8_nametaken_leaves_room_unchanged
    (evs : List Ev) (sid : String) (d : JoinData) (r : Room) (euid : String) (ep : Player)
    (hr : alookup (run evs).rooms d.roomId = some r)
    (hnew : alookup r.players d.userId = none)
    (hname : findByName r.players d.name = some (euid, ep))
    (hconn : ep.sid ≠ none) :
    join_room sid d (run evs).rooms
      = hOk (run evs).rooms [.errorMsg (.toSid (some sid)) "その名前は既に使われています"] := by
  have hinv : roomInv r := run_regInv evs _ (alookup_mem hr)
  have hempty : r.empty_at = none := by
    by_contra hne
    exact hconn (hinv.2 hne (euid, ep) (findByName_mem hname).1)
  have hr1 : ({ r with empty_at := none } : Room) = r := set_empty_none hempty
  have hreg : joinReg sid d { r with empty_at := none } = none := by
    rw [hr1]
    unfold joinReg
    rw [hnew]
    simp only [Option.isSome_none, Bool.false_eq_true, if_false, hname]
    rw [if_neg hconn]
  unfold join_room
  rw [hr]
  dsimp only
  rw [hreg]
  rw [hr1, aset_self_eq hr]

/-- Events reaching the C8 witness state: host `h` creates `R1`, contestant
`p1` (name `P1`) joins and stays connected. -/
def c8evs : List Ev :=
  [.create "s0" ⟨"R1", "H", "h", csvTwo⟩, .join "s1" ⟨"R1", "P1", "p1"⟩]

/-- The room those two events build. -/
def c8room : Room :=
  ⟨"h", "H", [("h", ⟨"H", 0, some "s0"⟩), ("p1", ⟨"P1", 0, some "s1"⟩)],
    [⟨some "Q1", some "A1"⟩, ⟨some "Q2", some "A2"⟩], -1, none, "init", none⟩

theorem C8_nametaken_leaves_room_unchanged_witness :
    join_room "s9" ⟨"R1", "P1", "p9"⟩ (run c8evs).rooms
      = hOk (run c8evs).rooms [.errorMsg (.toSid (some "s9")) "その名前は既に使われています"] :=
  C8_nametaken_leaves_room_unchanged c8evs "s9" ⟨"R1", "P1", "p9"⟩ c8room "p1"
    ⟨"P1", 0, some "s1"⟩ (by decide) (by decide) (by decide) (by decide)

/-- C10: in every reachable registry, every room's `master_user_id` is a
key of its `players` dict — room creation installs the host's record,
explicit leave returns early for the host, transport disconnection deletes
nothing, and identity takeover re-keys the record and repoints
`master_user_id` inside the same handler — so the unguarded
`r["players"][r["master_user_id"]]` dereferences in `next_question`,
`clear_display`, `close_room` and `judge` cannot raise. -/
theorem C10_host_always_registered (evs : List Ev) (roomId : String) (r : Room)
    (hr : alookup (run evs).rooms roomId = some r) :
    (alookup r.players r.master_user_id).isSome = true :=
  (run_regInv evs _ (alookup_mem hr)).1

/-- The room built by a bare create event. -/
def c10room : Room :=
  ⟨"h", "H", [("h", ⟨"H", 0, some "s0"⟩)], [⟨some "a", some "x"⟩], -1, none, "init", none⟩

theorem C10_host_always_registered_witness :
    (alookup c10room.players c10room.master_user_id).isSome = true :=
  C10_host_always_registered [.create "s0" ⟨"R1", "H", "h", csvOne⟩] "R1" c10room (by decide)

end QuizApp
